import Mathlib

/-!
Shallow embedding of the conference-registration portal backend
(two route files: the proof-file variant and the plain variant).

The persisted collection is a JSON array of registration records; every
route reads the whole array, possibly mutates it, and writes it back.
We model the collection as a `List Registration`, timestamps as natural
numbers (`new Date().toISOString()` becomes a clock value passed in),
and the generated `nanoid` identifiers as caller-supplied strings (the
generator itself is modelled separately for the identifier claims).
JavaScript stores the `paid` flag as the numbers `0` / `1`; we keep a
small JSON-value type for that field so the number/boolean distinction
of the source is preserved.
-/

namespace ScholarHub

/-- A JSON scalar value, enough to distinguish the encodings the source
actually uses (numbers 0/1 versus booleans for the `paid` flag). -/
inductive JSVal where
  | null : JSVal
  | bool : Bool → JSVal
  | num : Int → JSVal
  | str : String → JSVal
deriving DecidableEq, Repr

/-- JavaScript truthiness of a `JSVal` (no NaN in our fragment). -/
def JSVal.truthy : JSVal → Bool
  | .null => false
  | .bool b => b
  | .num n => n != 0
  | .str s => s != ""

/-- Truthiness of an optional string field of a request body:
`undefined`/absent and the empty string are falsy, as in `!category`. -/
def optFalsy : Option String → Bool
  | none => true
  | some s => s == ""

/-- `x || null` on an optional string body field: falsy collapses to null. -/
def orNull (x : Option String) : Option String :=
  if optFalsy x then none else x

/-- One registration record, with the fields built by `POST /api/register`
in the proof-file variant (the plain variant builds the same record minus
the two payment-proof fields, which it simply never touches). -/
structure Registration where
  id : String
  created_at : Nat
  category : String
  region : String
  currency : String
  amount : Nat
  paper_id : Option String
  name : String
  organization : Option String
  email : Option String
  mobile : String
  paper_filename : Option String
  paper_original : Option String
  paid : JSVal
  paid_at : Option Nat
  transaction_id : Option String
  payment_method : Option String
  payer_email : Option String
  payment_proof_filename : Option String
  payment_proof_original : Option String
deriving DecidableEq, Repr

/-- The error taxonomy of the routes (4xx bodies and the generic 500). -/
inductive ApiError where
  | missingField
  | invalidSelection
  | notFound
  | emailMismatch
  | unauthorized
  | internal
deriving DecidableEq, Repr

/-- The static fee table `FEES`: (category, region) to (currency, amount).
`FEES[category]?.[region]` yields `undefined` off the table, which we
render as `none`. -/
def FEES : String → String → Option (String × Nat) := fun category region =>
  match category, region with
  | "Research Scholars", "INDIA" => some ("INR", 1500)
  | "Research Scholars", "ASIA" => some ("USD", 100)
  | "Research Scholars", "OTHER" => some ("USD", 125)
  | "Academia", "INDIA" => some ("INR", 2000)
  | "Academia", "ASIA" => some ("USD", 150)
  | "Academia", "OTHER" => some ("USD", 175)
  | "Industry Professionals", "INDIA" => some ("INR", 2500)
  | "Industry Professionals", "ASIA" => some ("USD", 200)
  | "Industry Professionals", "OTHER" => some ("USD", 225)
  | "Listeners / Accompanying", "INDIA" => some ("INR", 500)
  | "Listeners / Accompanying", "ASIA" => some ("USD", 30)
  | "Listeners / Accompanying", "OTHER" => some ("USD", 40)
  | _, _ => none

/-- An uploaded file as multer reports it: generated filename and the
original client filename. -/
structure UploadFile where
  filename : String
  originalname : String
deriving DecidableEq, Repr

/-- Response body of a successful `POST /api/register`. -/
structure RegisterResp where
  id : String
  currency : String
  amount : Nat
  file : Option String
deriving DecidableEq, Repr

/-- `POST /api/register`: validate required fields, look up the fee,
append a fresh record, return id/fee/file URL.  `id` is the freshly
generated nanoid and `now` the current clock; both enter as parameters. -/
def register (rows : List Registration)
    (category region paperId name organization email mobile : Option String)
    (file : Option UploadFile) (id : String) (now : Nat) :
    Except ApiError (List Registration × RegisterResp) :=
  if optFalsy category || optFalsy region || optFalsy name
      || optFalsy email || optFalsy mobile then
    .error .missingField
  else
    match FEES (category.getD "") (region.getD "") with
    | none => .error .invalidSelection
    | some (currency, amount) =>
      let r : Registration := {
        id := id
        created_at := now
        category := category.getD ""
        region := region.getD ""
        currency := currency
        amount := amount
        paper_id := orNull paperId
        name := name.getD ""
        organization := orNull organization
        email := email
        mobile := mobile.getD ""
        paper_filename := file.map (fun f => f.filename)
        paper_original := file.map (fun f => f.originalname)
        paid := .num 0
        paid_at := none
        transaction_id := none
        payment_method := none
        payer_email := none
        payment_proof_filename := none
        payment_proof_original := none }
      .ok (rows ++ [r],
        { id := id, currency := currency, amount := amount,
          file := file.map (fun f => "/uploads/" ++ f.filename) })

/-- The collection after an operation: `writeDB` runs only on the success
path, so an error leaves the persisted rows as they were. -/
def dbAfter {α : Type} (rows : List Registration)
    (res : Except ApiError (List Registration × α)) : List Registration :=
  match res with
  | .ok (rows2, _) => rows2
  | .error _ => rows

/-- JS `toLowerCase` on the character list of a string (the emails and
search queries of this service are ASCII). -/
def strToLower (s : String) : String := String.mk (s.data.map Char.toLower)

/-- Response body of a successful proof-file `POST /api/confirm-payment/:id`. -/
structure ConfirmResp where
  ok : Bool
  id : String
deriving DecidableEq, Repr

/-- Truthiness of the stored `email` field (`rec.email && ...`): absent
(null) and the empty string are falsy. -/
def storedTruthy : Option String → Bool
  | none => false
  | some s => s != ""

/-- `POST /api/confirm-payment/:id` in the proof-file variant: requires
the screenshot file; looks up the record by id; when the stored email is
truthy it must match the supplied email case-insensitively; then sets
the payment fields and the proof filenames. -/
def confirmPayment (rows : List Registration) (rid : String)
    (transactionId method email : String) (file : Option UploadFile)
    (now : Nat) : Except ApiError (List Registration × ConfirmResp) :=
  match file with
  | none => .error .missingField
  | some f =>
    match rows.findIdx? (fun r => r.id == rid) with
    | none => .error .notFound
    | some i =>
      match rows.get? i with
      | none => .error .notFound
      | some r =>
        if storedTruthy r.email
            && (strToLower (r.email.getD "") != strToLower email) then
          .error .emailMismatch
        else
          let r2 : Registration := { r with
            paid := .num 1
            paid_at := some now
            transaction_id := some transactionId
            payment_method := some method
            payer_email := some email
            payment_proof_filename := some f.filename
            payment_proof_original := some f.originalname }
          .ok (rows.set i r2, { ok := true, id := rid })

/-- `POST /api/confirm-payment/:id` in the plain variant: requires
transactionId, method and email truthy; no proof file; the email check
is unconditional (`rows[idx].email.toLowerCase()` throws on a null
stored email, surfacing as a 500, which we render as `internal`). -/
def confirmPayment2 (rows : List Registration) (rid : String)
    (transactionId method email : Option String) (now : Nat) :
    Except ApiError (List Registration × ConfirmResp) :=
  if optFalsy transactionId || optFalsy method || optFalsy email then
    .error .missingField
  else
    match rows.findIdx? (fun r => r.id == rid) with
    | none => .error .notFound
    | some i =>
      match rows.get? i with
      | none => .error .notFound
      | some r =>
        match r.email with
        | none => .error .internal
        | some e =>
          if strToLower e != strToLower (email.getD "") then
            .error .emailMismatch
          else
            let r2 : Registration := { r with
              paid := .num 1
              paid_at := some now
              transaction_id := transactionId
              payment_method := method
              payer_email := email }
            .ok (rows.set i r2, { ok := true, id := rid })

/-- `checkAdminPassword`: the resolved caller secret must equal the
configured password by exact string comparison. -/
def checkAdminPassword (adminPassword pass : String) : Bool :=
  pass == adminPassword

/-- `req.query.password || req.headers["x-admin-password"] || ""`:
the first truthy of query parameter, header, empty string. -/
def resolveSecret (queryPassword headerPassword : Option String) : String :=
  if !optFalsy queryPassword then queryPassword.getD ""
  else if !optFalsy headerPassword then headerPassword.getD ""
  else ""

/-- JS string concatenation with a possibly-null operand:
`null` prints as the string "null". -/
def jsStr : Option String → String
  | none => "null"
  | some s => s

/-- The search key of a record in the admin list:
`(r.id + r.name + r.paper_id)`. -/
def searchKey (r : Registration) : String :=
  r.id ++ r.name ++ jsStr r.paper_id

/-- `needle.isPrefixOf hay` over character lists, written out. -/
def listPrefixOf : List Char → List Char → Bool
  | [], _ => true
  | _ :: _, [] => false
  | a :: as, b :: bs => a == b && listPrefixOf as bs

/-- JS `hay.includes needle` over character lists. -/
def listIncludes (hay needle : List Char) : Bool :=
  listPrefixOf needle hay ||
    match hay with
    | [] => false
    | _ :: cs => listIncludes cs needle

/-- JS `hay.includes needle` on strings. -/
def strIncludes (hay needle : String) : Bool :=
  listIncludes hay.data needle.data

/-- A record as the admin list returns it: the record spread together
with the two derived URL fields. -/
structure AugRecord where
  base : Registration
  paper_url : Option String
  payment_proof_url : Option String
deriving DecidableEq, Repr

/-- The `withUrls` map of `GET /api/admin/registrations`. -/
def augment (r : Registration) : AugRecord :=
  { base := r
    paper_url := r.paper_filename.map (fun f => "/uploads/" ++ f)
    payment_proof_url :=
      r.payment_proof_filename.map (fun f => "/uploads/" ++ f) }

/-- `GET /api/admin/registrations`: password gate, reverse the rows,
filter by the lowercased search query when it is truthy, augment with
derived URLs.  Read-only: the row list it returns is the response body,
not a new persisted collection. -/
def adminList (adminPassword pass : String) (rows : List Registration)
    (q : Option String) : Except ApiError (List AugRecord) :=
  if !checkAdminPassword adminPassword pass then
    .error .unauthorized
  else
    let q2 := strToLower (q.getD "")
    let rows1 := rows.reverse
    let rows2 :=
      if q2 != "" then
        rows1.filter (fun r => strIncludes (strToLower (searchKey r)) q2)
      else rows1
    .ok (rows2.map augment)

/-- The CSV header row of `GET /api/admin/export` (proof-file variant). -/
def csvHeaders : List String :=
  ["id", "created_at", "category", "region", "currency", "amount",
   "paper_id", "name", "organization", "email", "mobile",
   "paper_filename", "paper_original", "paid", "paid_at",
   "transaction_id", "payment_method", "payer_email",
   "payment_proof_filename", "payment_proof_original"]

/-- `String(r[h] ?? "")` for each header: JS stringification of the
field with null collapsing to the empty string. -/
def fieldString (r : Registration) (h : String) : String :=
  match h with
  | "id" => r.id
  | "created_at" => toString r.created_at
  | "category" => r.category
  | "region" => r.region
  | "currency" => r.currency
  | "amount" => toString r.amount
  | "paper_id" => (r.paper_id.getD "")
  | "name" => r.name
  | "organization" => (r.organization.getD "")
  | "email" => (r.email.getD "")
  | "mobile" => r.mobile
  | "paper_filename" => (r.paper_filename.getD "")
  | "paper_original" => (r.paper_original.getD "")
  | "paid" => match r.paid with
    | .null => ""
    | .bool b => if b then "true" else "false"
    | .num n => toString n
    | .str s => s
  | "paid_at" => match r.paid_at with
    | none => ""
    | some t => toString t
  | "transaction_id" => (r.transaction_id.getD "")
  | "payment_method" => (r.payment_method.getD "")
  | "payer_email" => (r.payer_email.getD "")
  | "payment_proof_filename" => (r.payment_proof_filename.getD "")
  | "payment_proof_original" => (r.payment_proof_original.getD "")
  | _ => ""

/-- One quoted, comma-separated, double-quote-escaped CSV line. -/
def csvLine (r : Registration) : String :=
  String.intercalate ","
    (csvHeaders.map (fun h =>
      "\"" ++ (fieldString r h).replace "\"" "\"\"" ++ "\""))

/-- `GET /api/admin/export`: password gate, then the header row followed
by one line per record in reverse insertion order. -/
def adminExport (adminPassword pass : String) (rows : List Registration) :
    Except ApiError (List String) :=
  if !checkAdminPassword adminPassword pass then
    .error .unauthorized
  else
    .ok (String.intercalate "," csvHeaders
      :: (rows.reverse).map csvLine)

/-- `POST /api/admin/mark-paid/:id`: password gate, find the record,
force-set `paid` (`paid ? 1 : 0`) and `paid_at` (now or null), leave
every other field alone, persist. -/
def adminMarkPaid (adminPassword pass : String) (rows : List Registration)
    (rid : String) (paid : Bool) (now : Nat) :
    Except ApiError (List Registration × Registration) :=
  if !checkAdminPassword adminPassword pass then
    .error .unauthorized
  else
    match rows.findIdx? (fun r => r.id == rid) with
    | none => .error .notFound
    | some i =>
      match rows.get? i with
      | none => .error .notFound
      | some r =>
        let r2 : Registration := { r with
          paid := .num (if paid then 1 else 0)
          paid_at := if paid then some now else none }
        .ok (rows.set i r2, r2)

/-- The nanoid alphabet `"123456789ABCDEFGHJKLMNPQRSTUVWXYZ"`. -/
def NANOID_ALPHABET : List Char := "123456789ABCDEFGHJKLMNPQRSTUVWXYZ".data

/-- `customAlphabet(alphabet, 10)`: ten characters, each indexed into
the alphabet by a random byte reduced modulo the alphabet size.  The
random source enters as the function `pick`. -/
def nanoidGen (pick : Nat → Nat) : String :=
  String.mk ((List.range 10).map
    (fun i => NANOID_ALPHABET.getD (pick i % NANOID_ALPHABET.length) 'A'))

/-- One documented mutating operation of the proof-file route set. -/
inductive Op where
  | opRegister (category region paperId name organization email mobile : Option String)
      (file : Option UploadFile) (id : String) (now : Nat)
  | opConfirm (rid : String) (transactionId method email : String)
      (file : Option UploadFile) (now : Nat)
  | opMark (pass : String) (rid : String) (paid : Bool) (now : Nat)

/-- Whether an operation is the admin mark-paid override. -/
def Op.isMark : Op → Bool
  | .opMark _ _ _ _ => true
  | _ => false

/-- Apply one operation to the persisted collection (errors write nothing). -/
def step (adminPassword : String) (rows : List Registration) : Op → List Registration
  | .opRegister c rg p n o e m f id now =>
    dbAfter rows (register rows c rg p n o e m f id now)
  | .opConfirm rid tx mth em f now =>
    dbAfter rows (confirmPayment rows rid tx mth em f now)
  | .opMark pass rid b now =>
    dbAfter rows (adminMarkPaid adminPassword pass rows rid b now)

/-- The collection reached from the empty store by a sequence of
documented operations. -/
def reach (adminPassword : String) (ops : List Op) : List Registration :=
  ops.foldl (step adminPassword) []

/-- The weak not-paid invariant: an unpaid record has no `paid_at`. -/
def paidAtInv (r : Registration) : Prop :=
  r.paid.truthy = false → r.paid_at = none

/-- The full not-paid invariant claimed in the data-model section:
an unpaid record has null `paid_at`, `transaction_id`, `payment_method`
and `payer_email`. -/
def fullInv (r : Registration) : Prop :=
  r.paid.truthy = false →
    r.paid_at = none ∧ r.transaction_id = none
      ∧ r.payment_method = none ∧ r.payer_email = none

instance (r : Registration) : Decidable (paidAtInv r) := by
  unfold paidAtInv; infer_instance

instance (r : Registration) : Decidable (fullInv r) := by
  unfold fullInv; infer_instance

/-- The record written by the admin mark-paid override. -/
def markedRec (r : Registration) (paid : Bool) (now : Nat) : Registration :=
  { r with
    paid := .num (if paid then 1 else 0)
    paid_at := if paid then some now else none }

/-- The record written by a successful proof-file payment confirmation. -/
def confirmedRec (r : Registration) (transactionId method email : String)
    (f : UploadFile) (now : Nat) : Registration :=
  { r with
    paid := .num 1
    paid_at := some now
    transaction_id := some transactionId
    payment_method := some method
    payer_email := some email
    payment_proof_filename := some f.filename
    payment_proof_original := some f.originalname }

/-! ### Concrete demonstration values -/

/-- A concrete payment-proof upload. -/
def demoFile : UploadFile := { filename := "F1", originalname := "f.png" }

/-- The record built by a registration with category Academia, region
ASIA, name Ann, email a@b.c, mobile 99, id R1 at time 0, no paper. -/
def demoFreshRec : Registration :=
  { id := "R1", created_at := 0, category := "Academia", region := "ASIA"
    currency := "USD", amount := 150, paper_id := none, name := "Ann"
    organization := none, email := some "a@b.c", mobile := "99"
    paper_filename := none, paper_original := none, paid := .num 0
    paid_at := none, transaction_id := none, payment_method := none
    payer_email := none, payment_proof_filename := none
    payment_proof_original := none }

/-- `demoFreshRec` after a successful payment confirmation at time 1. -/
def demoPaidRec : Registration :=
  confirmedRec demoFreshRec "TX1" "UPI" "a@b.c" demoFile 1

/-- A second record, with a paper id, for the search-query scenarios. -/
def demoRec2 : Registration :=
  { demoFreshRec with
    id := "Z7"
    name := "Bob"
    paper_id := some "P9"
    paper_filename := some "F2"
    created_at := 3 }

/-- A stored record whose email field is null (possible in the JSON
file even though `register` always stores one). -/
def demoNoEmailRec : Registration := { demoFreshRec with id := "R2", email := none }

/-- The registration step of the demonstration scenario. -/
def regOp : Op :=
  .opRegister (some "Academia") (some "ASIA") none (some "Ann") none
    (some "a@b.c") (some "99") none "R1" 0

/-- The payment-confirmation step of the demonstration scenario. -/
def confirmOp : Op := .opConfirm "R1" "TX1" "UPI" "a@b.c" (some demoFile) 1

/-- The admin mark-unpaid step of the demonstration scenario. -/
def markFalseOp : Op := .opMark "pw" "R1" false 2

/-! ### Helper lemmas about membership after each operation -/

theorem mem_dbAfter_register {rows : List Registration}
    {c rg p n o e m : Option String} {f : Option UploadFile} {id : String}
    {now : Nat} {r : Registration}
    (hr : r ∈ dbAfter rows (register rows c rg p n o e m f id now)) :
    r ∈ rows ∨ (r.paid = .num 0 ∧ r.paid_at = none ∧ r.transaction_id = none
      ∧ r.payment_method = none ∧ r.payer_email = none) := by
  simp only [register] at hr
  split at hr
  · exact .inl hr
  · split at hr
    · exact .inl hr
    · simp only [dbAfter, List.mem_append, List.mem_singleton] at hr
      rcases hr with hr | hr
      · exact .inl hr
      · subst hr
        exact .inr ⟨rfl, rfl, rfl, rfl, rfl⟩

theorem mem_dbAfter_confirm {rows : List Registration} {rid tx mth em : String}
    {f : Option UploadFile} {now : Nat} {r : Registration}
    (hr : r ∈ dbAfter rows (confirmPayment rows rid tx mth em f now)) :
    r ∈ rows ∨ r.paid = .num 1 := by
  simp only [confirmPayment] at hr
  split at hr
  · exact .inl hr
  · split at hr
    · exact .inl hr
    · split at hr
      · exact .inl hr
      · split at hr
        · exact .inl hr
        · simp only [dbAfter] at hr
          rcases List.mem_or_eq_of_mem_set hr with hr | hr
          · exact .inl hr
          · subst hr
            exact .inr rfl

theorem mem_dbAfter_mark {cfg pass : String} {rows : List Registration}
    {rid : String} {b : Bool} {now : Nat} {r : Registration}
    (hr : r ∈ dbAfter rows (adminMarkPaid cfg pass rows rid b now)) :
    r ∈ rows ∨ r.paid = .num 1 ∨ (r.paid = .num 0 ∧ r.paid_at = none) := by
  simp only [adminMarkPaid] at hr
  split at hr
  · exact .inl hr
  · split at hr
    · exact .inl hr
    · split at hr
      · exact .inl hr
      · simp only [dbAfter] at hr
        rcases List.mem_or_eq_of_mem_set hr with hr | hr
        · exact .inl hr
        · subst hr
          cases b with
          | false => exact .inr (.inr ⟨rfl, rfl⟩)
          | true => exact .inr (.inl rfl)

theorem step_paidAtInv (pw : String) (rows : List Registration) (op : Op)
    (h : ∀ r ∈ rows, paidAtInv r) : ∀ r ∈ step pw rows op, paidAtInv r := by
  intro r hr
  cases op with
  | opRegister c rg p n o e m f id now =>
    rcases mem_dbAfter_register hr with h1 | h2
    · exact h r h1
    · intro _
      exact h2.2.1
  | opConfirm rid tx mth em f now =>
    rcases mem_dbAfter_confirm hr with h1 | h2
    · exact h r h1
    · intro htr
      rw [h2] at htr
      simp [JSVal.truthy] at htr
  | opMark pass rid b now =>
    rcases mem_dbAfter_mark hr with h1 | h2 | h3
    · exact h r h1
    · intro htr
      rw [h2] at htr
      simp [JSVal.truthy] at htr
    · intro _
      exact h3.2

theorem step_fullInv (pw : String) (rows : List Registration) (op : Op)
    (hop : op.isMark = false) (h : ∀ r ∈ rows, fullInv r) :
    ∀ r ∈ step pw rows op, fullInv r := by
  intro r hr
  cases op with
  | opRegister c rg p n o e m f id now =>
    rcases mem_dbAfter_register hr with h1 | h2
    · exact h r h1
    · intro _
      exact ⟨h2.2.1, h2.2.2.1, h2.2.2.2.1, h2.2.2.2.2⟩
  | opConfirm rid tx mth em f now =>
    rcases mem_dbAfter_confirm hr with h1 | h2
    · exact h r h1
    · intro htr
      rw [h2] at htr
      simp [JSVal.truthy] at htr
  | opMark pass rid b now =>
    simp [Op.isMark] at hop

theorem foldl_paidAtInv (pw : String) (ops : List Op) :
    ∀ rows : List Registration, (∀ r ∈ rows, paidAtInv r) →
      ∀ r ∈ ops.foldl (step pw) rows, paidAtInv r := by
  induction ops with
  | nil => intro rows h; simpa using h
  | cons op ops ih =>
    intro rows h
    exact ih _ (step_paidAtInv pw rows op h)

theorem foldl_fullInv (pw : String) (ops : List Op)
    (hops : ∀ op ∈ ops, op.isMark = false) :
    ∀ rows : List Registration, (∀ r ∈ rows, fullInv r) →
      ∀ r ∈ ops.foldl (step pw) rows, fullInv r := by
  induction ops with
  | nil => intro rows h; simpa using h
  | cons op ops ih =>
    intro rows h
    exact ih (fun o ho => hops o (List.mem_cons_of_mem _ ho)) _
      (step_fullInv pw rows op (hops op (List.mem_cons_self _ _)) h)

/-! ### C1 -/

/-- C1, counterexample: the claimed invariant "`paid=false` implies
`paid_at`, `transaction_id`, `payment_method`, `payer_email` all null,
preserved by every documented operation" fails on the code.  Concretely,
register (id R1) followed by a successful payment confirmation followed
by admin mark-paid `false` yields a reachable collection whose record is
unpaid yet keeps `transaction_id = "TX1"`, `payment_method = "UPI"` and
`payer_email = "a@b.c"`. -/
theorem paid_false_invariant_counterexample :
    (reach "pw" [regOp, confirmOp, markFalseOp]).head?.map
        (fun r => (r.paid.truthy, r.paid_at, r.transaction_id,
          r.payment_method, r.payer_email))
      = some (false, none, some "TX1", some "UPI", some "a@b.c")
    ∧ ¬ (∀ r ∈ reach "pw" [regOp, confirmOp, markFalseOp], fullInv r) := by
  constructor
  · rfl
  · decide

/-- C1, amended: every reachable record with a falsy `paid` flag has a
null `paid_at`, and the full invariant (`paid_at`, `transaction_id`,
`payment_method`, `payer_email` all null when unpaid) holds for every
collection reachable by register and confirmPayment alone; the admin
mark-paid override is the one operation that does not preserve the full
invariant. -/
theorem paid_false_invariant_amended (adminPassword : String) (ops : List Op) :
    (∀ r ∈ reach adminPassword ops, paidAtInv r)
    ∧ ((∀ op ∈ ops, op.isMark = false) →
        ∀ r ∈ reach adminPassword ops, fullInv r) := by
  constructor
  · exact foldl_paidAtInv adminPassword ops [] (by intro r hr; cases hr)
  · intro hops
    exact foldl_fullInv adminPassword ops hops [] (by intro r hr; cases hr)

/-- C1, witness: the amended invariants evaluated on the concrete
scenarios (with and without the admin override). -/
theorem paid_false_invariant_amended_witness :
    paidAtInv ((reach "pw" [regOp, confirmOp, markFalseOp]).getLast (by decide))
    ∧ fullInv ((reach "pw" [regOp, confirmOp]).getLast (by decide)) :=
  ⟨(paid_false_invariant_amended "pw" [regOp, confirmOp, markFalseOp]).1 _
      (List.getLast_mem _),
   (paid_false_invariant_amended "pw" [regOp, confirmOp]).2 (by decide) _
      (List.getLast_mem _)⟩

/-! ### C2 -/

/-- C2: for every (category, region) pair present in the fee table,
`register` with all required fields non-empty succeeds and returns
exactly the stored currency and amount (the witness instantiates the
pair Academia/ASIA, which returns USD 150). -/
theorem register_returns_fee (rows : List Registration)
    (category region name email mobile : String)
    (paperId organization : Option String) (file : Option UploadFile)
    (id : String) (now : Nat) (cur : String) (amt : Nat)
    (hcat : category ≠ "") (hreg : region ≠ "") (hname : name ≠ "")
    (hemail : email ≠ "") (hmobile : mobile ≠ "")
    (hfee : FEES category region = some (cur, amt)) :
    ∃ rows2, register rows (some category) (some region) paperId (some name)
        organization (some email) (some mobile) file id now
      = .ok (rows2,
          { id := id
            currency := cur
            amount := amt
            file := file.map (fun f => "/uploads/" ++ f.filename) }) := by
  refine ⟨rows ++ [{
    id := id
    created_at := now
    category := category
    region := region
    currency := cur
    amount := amt
    paper_id := orNull paperId
    name := name
    organization := orNull organization
    email := some email
    mobile := mobile
    paper_filename := file.map (fun f => f.filename)
    paper_original := file.map (fun f => f.originalname)
    paid := .num 0
    paid_at := none
    transaction_id := none
    payment_method := none
    payer_email := none
    payment_proof_filename := none
    payment_proof_original := none }], ?_⟩
  simp only [register, optFalsy, Option.getD_some,
    beq_eq_false_iff_ne.mpr hcat, beq_eq_false_iff_ne.mpr hreg,
    beq_eq_false_iff_ne.mpr hname, beq_eq_false_iff_ne.mpr hemail,
    beq_eq_false_iff_ne.mpr hmobile, Bool.or_self, Bool.or_false,
    Bool.false_or, if_false, hfee]
  rfl

/-- C2, witness: registering with category Academia and region ASIA
returns currency USD and amount 150. -/
theorem register_returns_fee_witness :
    ∃ rows2, register [] (some "Academia") (some "ASIA") none (some "Ann")
        none (some "a@b.c") (some "99") none "R1" 0
      = .ok (rows2,
          { id := "R1"
            currency := "USD"
            amount := 150
            file := none }) :=
  register_returns_fee [] "Academia" "ASIA" "Ann" "a@b.c" "99" none none none
    "R1" 0 "USD" 150 (by decide) (by decide) (by decide) (by decide)
    (by decide) rfl

/-! ### C3 -/

/-- C3: `register` with any of category, region, name, email, mobile
missing (absent or empty) returns the missing-field client error; with
all fields present but a (category, region) pair absent from the fee
table it returns the invalid-selection client error; and every error
leaves the persisted collection exactly unchanged. -/
theorem register_invalid_frame (rows : List Registration)
    (category region paperId name organization email mobile : Option String)
    (file : Option UploadFile) (id : String) (now : Nat) :
    ((optFalsy category || optFalsy region || optFalsy name
        || optFalsy email || optFalsy mobile) = true →
      register rows category region paperId name organization email mobile
          file id now = .error .missingField)
    ∧ ((optFalsy category || optFalsy region || optFalsy name
        || optFalsy email || optFalsy mobile) = false →
      FEES (category.getD "") (region.getD "") = none →
      register rows category region paperId name organization email mobile
          file id now = .error .invalidSelection)
    ∧ (∀ err, register rows category region paperId name organization email
          mobile file id now = .error err →
      dbAfter rows (register rows category region paperId name organization
          email mobile file id now) = rows) := by
  refine ⟨?_, ?_, ?_⟩
  · intro h
    simp only [register, h, if_true]
  · intro h1 h2
    simp only [register, h1, h2]
    rfl
  · intro err h
    rw [h]
    rfl

/-- C3, witness: a registration missing its category is rejected with
the missing-field error, a registration with the unknown region EUROPE
is rejected with the invalid-selection error, and the collection is
unchanged. -/
theorem register_invalid_frame_witness :
    register [] none (some "ASIA") none (some "Ann") none (some "a@b.c")
        (some "99") none "R1" 0 = .error .missingField
    ∧ register [] (some "Academia") (some "EUROPE") none (some "Ann") none
        (some "a@b.c") (some "99") none "R1" 0 = .error .invalidSelection
    ∧ dbAfter [] (register [] none (some "ASIA") none (some "Ann") none
        (some "a@b.c") (some "99") none "R1" 0) = [] := by
  refine ⟨?_, ?_, ?_⟩
  · exact (register_invalid_frame [] none (some "ASIA") none (some "Ann")
      none (some "a@b.c") (some "99") none "R1" 0).1 (by decide)
  · exact (register_invalid_frame [] (some "Academia") (some "EUROPE") none
      (some "Ann") none (some "a@b.c") (some "99") none "R1" 0).2.1
      (by decide) (by decide)
  · exact (register_invalid_frame [] none (some "ASIA") none (some "Ann")
      none (some "a@b.c") (some "99") none "R1" 0).2.2 .missingField
      ((register_invalid_frame [] none (some "ASIA") none (some "Ann")
        none (some "a@b.c") (some "99") none "R1" 0).1 (by decide))

/-! ### C4 -/

/-- C4: with the correct password, mark-paid on a present id force-sets
the paid flag (to the code's numeric encoding: falsy 0 / truthy 1) and
`paid_at` (null / the current time) and changes nothing else — in
particular `transaction_id`, `payment_method`, `payer_email` and the
two payment-proof fields survive a mark-unpaid after a successful
confirmation; on an absent id it fails not-found and leaves the
collection unchanged. -/
theorem adminMarkPaid_spec (cfg : String) (rows : List Registration)
    (rid : String) (now : Nat) :
    (∀ i r, rows.findIdx? (fun q => q.id == rid) = some i →
      rows.get? i = some r →
      (adminMarkPaid cfg cfg rows rid false now
          = .ok (rows.set i (markedRec r false now), markedRec r false now)
        ∧ (markedRec r false now).paid = .num 0
        ∧ (markedRec r false now).paid.truthy = false
        ∧ (markedRec r false now).paid_at = none
        ∧ (markedRec r false now).transaction_id = r.transaction_id
        ∧ (markedRec r false now).payment_method = r.payment_method
        ∧ (markedRec r false now).payer_email = r.payer_email
        ∧ (markedRec r false now).payment_proof_filename
            = r.payment_proof_filename
        ∧ (markedRec r false now).payment_proof_original
            = r.payment_proof_original)
      ∧ (adminMarkPaid cfg cfg rows rid true now
          = .ok (rows.set i (markedRec r true now), markedRec r true now)
        ∧ (markedRec r true now).paid = .num 1
        ∧ (markedRec r true now).paid.truthy = true
        ∧ (markedRec r true now).paid_at = some now))
    ∧ (rows.findIdx? (fun q => q.id == rid) = none →
      ∀ b, adminMarkPaid cfg cfg rows rid b now = .error .notFound
        ∧ dbAfter rows (adminMarkPaid cfg cfg rows rid b now) = rows) := by
  have hc : checkAdminPassword cfg cfg = true := by
    simp [checkAdminPassword]
  constructor
  · intro i r hfind hget
    have hrun : ∀ b : Bool, adminMarkPaid cfg cfg rows rid b now
        = .ok (rows.set i (markedRec r b now), markedRec r b now) := by
      intro b
      simp only [adminMarkPaid, hc, Bool.not_true, hfind, hget, markedRec]
      rfl
    exact ⟨⟨hrun false, rfl, rfl, rfl, rfl, rfl, rfl, rfl, rfl⟩,
      hrun true, rfl, rfl, rfl⟩
  · intro hnone b
    have herr : adminMarkPaid cfg cfg rows rid b now = .error .notFound := by
      simp only [adminMarkPaid, hc, Bool.not_true, hnone]
      rfl
    exact ⟨herr, by rw [herr]; rfl⟩

/-- C4, witness: on the record that has just been confirmed (so carries
transaction TX1, method UPI, payer a@b.c and a proof file), admin
mark-unpaid clears the flag and `paid_at` but keeps all payment-history
fields; an unknown id gives not-found. -/
theorem adminMarkPaid_spec_witness :
    adminMarkPaid "pw" "pw" [demoPaidRec] "R1" false 2
        = .ok ([markedRec demoPaidRec false 2], markedRec demoPaidRec false 2)
    ∧ (markedRec demoPaidRec false 2).paid.truthy = false
    ∧ (markedRec demoPaidRec false 2).transaction_id = some "TX1"
    ∧ (markedRec demoPaidRec false 2).payment_proof_filename = some "F1"
    ∧ adminMarkPaid "pw" "pw" [demoPaidRec] "ZZ" true 2
        = .error .notFound := by
  have h := (adminMarkPaid_spec "pw" [demoPaidRec] "R1" 2).1 0 demoPaidRec
    rfl rfl
  exact ⟨h.1.1, h.1.2.2.1, by rfl, by rfl,
    ((adminMarkPaid_spec "pw" [demoPaidRec] "ZZ" 2).2 rfl true).1⟩

/-! ### C5 -/

/-- C5: for a stored record with a non-empty email (which is what
`register` always persists), the proof-file confirm-payment succeeds
exactly when the supplied email equals the stored one up to letter
case; a supplied email differing in any other character yields the
email-mismatch error and leaves the collection unchanged. -/
theorem confirm_email_case_insensitive (rows : List Registration)
    (rid tx mth pe : String) (f : UploadFile) (now : Nat) (i : Nat)
    (r : Registration) (e : String)
    (hfind : rows.findIdx? (fun q => q.id == rid) = some i)
    (hget : rows.get? i = some r)
    (hemail : r.email = some e) (hne : e ≠ "") :
    (strToLower pe = strToLower e →
      confirmPayment rows rid tx mth pe (some f) now
        = .ok (rows.set i (confirmedRec r tx mth pe f now),
            { ok := true, id := rid }))
    ∧ (strToLower pe ≠ strToLower e →
      confirmPayment rows rid tx mth pe (some f) now = .error .emailMismatch
      ∧ dbAfter rows (confirmPayment rows rid tx mth pe (some f) now)
          = rows) := by
  constructor
  · intro hmatch
    have hcond : (storedTruthy r.email
        && (strToLower (r.email.getD "") != strToLower pe)) = false := by
      rw [hemail]
      simp [hmatch]
    simp only [confirmPayment, hfind, hget, hcond, confirmedRec]
    rfl
  · intro hmis
    have hcond : (storedTruthy r.email
        && (strToLower (r.email.getD "") != strToLower pe)) = true := by
      rw [hemail]
      simp [storedTruthy, bne_iff_ne, hne, Ne.symm hmis]
    have herr : confirmPayment rows rid tx mth pe (some f) now
        = .error .emailMismatch := by
      simp only [confirmPayment, hfind, hget, hcond]
      rfl
    exact ⟨herr, by rw [herr]; rfl⟩

/-- C5, witness: on the freshly registered record storing a@b.c, the
case-variant A@B.C is accepted while x@y.z is rejected with the
email-mismatch error. -/
theorem confirm_email_case_insensitive_witness :
    confirmPayment [demoFreshRec] "R1" "TX1" "UPI" "A@B.C" (some demoFile) 1
        = .ok ([confirmedRec demoFreshRec "TX1" "UPI" "A@B.C" demoFile 1],
            { ok := true, id := "R1" })
    ∧ confirmPayment [demoFreshRec] "R1" "TX1" "UPI" "x@y.z" (some demoFile) 1
        = .error .emailMismatch := by
  have h := confirm_email_case_insensitive [demoFreshRec] "R1" "TX1" "UPI"
    "A@B.C" demoFile 1 0 demoFreshRec "a@b.c" rfl rfl rfl (by decide)
  have h2 := confirm_email_case_insensitive [demoFreshRec] "R1" "TX1" "UPI"
    "x@y.z" demoFile 1 0 demoFreshRec "a@b.c" rfl rfl rfl (by decide)
  exact ⟨h.1 (by decide), (h2.2 (by decide)).1⟩

/-! ### C6 -/

/-- C6, counterexample: the claim says the fresh record's `paid` equals
the boolean `false` and, after confirmation, the boolean `true`; the
code stores the numbers 0 and 1 instead (`paid: 0` at registration,
`rec.paid = 1` at confirmation), which are falsy/truthy but not equal
to the JSON booleans. -/
theorem fresh_paid_not_boolean_counterexample :
    (dbAfter [] (register [] (some "Academia") (some "ASIA") none (some "Ann")
        none (some "a@b.c") (some "99") none "R1" 0)).map (fun r => r.paid)
      = [JSVal.num 0]
    ∧ JSVal.num 0 ≠ JSVal.bool false
    ∧ (dbAfter [demoFreshRec] (confirmPayment [demoFreshRec] "R1" "TX1" "UPI"
        "a@b.c" (some demoFile) 1)).map (fun r => r.paid) = [JSVal.num 1]
    ∧ JSVal.num 1 ≠ JSVal.bool true :=
  ⟨rfl, by decide, rfl, by decide⟩

/-- C6, amended: a record freshly created by register has `paid` equal
to the number 0 (the code's falsy not-paid encoding) and a null
`paid_at`; after confirmPayment succeeds at a time no earlier than the
record's creation, re-reading the record at its index shows `paid`
equal to the number 1 (truthy) and a non-null `paid_at` greater than or
equal to `created_at`. -/
theorem paid_lifecycle (rows : List Registration)
    (category region paperId name organization email mobile : Option String)
    (file : Option UploadFile) (id : String) (tCreate : Nat) :
    (∀ rows2 resp, register rows category region paperId name organization
        email mobile file id tCreate = .ok (rows2, resp) →
      ∃ r0, rows2.getLast? = some r0 ∧ r0.paid = .num 0
        ∧ r0.paid.truthy = false ∧ r0.paid_at = none
        ∧ r0.created_at = tCreate)
    ∧ (∀ (rid tx mth pe : String) (f : UploadFile) (tConfirm i : Nat)
        (r : Registration) (e : String),
      rows.findIdx? (fun q => q.id == rid) = some i →
      rows.get? i = some r → r.email = some e →
      strToLower pe = strToLower e → r.created_at ≤ tConfirm →
      confirmPayment rows rid tx mth pe (some f) tConfirm
          = .ok (rows.set i (confirmedRec r tx mth pe f tConfirm),
              { ok := true, id := rid })
        ∧ (rows.set i (confirmedRec r tx mth pe f tConfirm)).get? i
            = some (confirmedRec r tx mth pe f tConfirm)
        ∧ (confirmedRec r tx mth pe f tConfirm).paid = .num 1
        ∧ (confirmedRec r tx mth pe f tConfirm).paid.truthy = true
        ∧ ∃ t, (confirmedRec r tx mth pe f tConfirm).paid_at = some t
            ∧ (confirmedRec r tx mth pe f tConfirm).created_at ≤ t) := by
  constructor
  · intro rows2 resp h
    simp only [register] at h
    split at h
    · simp at h
    · split at h
      · simp at h
      · simp only [Except.ok.injEq, Prod.mk.injEq] at h
        rw [← h.1]
        exact ⟨_, List.getLast?_concat _, rfl, rfl, rfl, rfl⟩
  · intro rid tx mth pe f tConfirm i r e hfind hget hemail hmatch htime
    have hcond : (storedTruthy r.email
        && (strToLower (r.email.getD "") != strToLower pe)) = false := by
      rw [hemail]
      simp [hmatch]
    have hlt : i < rows.length := (List.get?_eq_some.mp hget).1
    refine ⟨?_, ?_, rfl, rfl, tConfirm, rfl, htime⟩
    · simp only [confirmPayment, hfind, hget, hcond, confirmedRec]
      rfl
    · rw [List.get?_eq_getElem?]
      exact List.getElem?_set_eq_of_lt _ hlt

/-- C6, witness: the register/confirm scenario evaluated concretely —
the fresh record carries the number 0 and no `paid_at`; after the
confirmation at time 1 the stored record carries the number 1 and
`paid_at = 1 ≥ created_at = 0`. -/
theorem paid_lifecycle_witness :
    (∃ r0, [demoFreshRec].getLast? = some r0 ∧ r0.paid = .num 0
      ∧ r0.paid.truthy = false ∧ r0.paid_at = none ∧ r0.created_at = 0)
    ∧ confirmPayment [demoFreshRec] "R1" "TX1" "UPI" "a@b.c" (some demoFile) 1
        = .ok ([demoPaidRec], { ok := true, id := "R1" })
    ∧ (∃ t, demoPaidRec.paid_at = some t ∧ demoPaidRec.created_at ≤ t) := by
  have h1 := (paid_lifecycle [] (some "Academia") (some "ASIA") none
    (some "Ann") none (some "a@b.c") (some "99") none "R1" 0).1
    [demoFreshRec]
    { id := "R1", currency := "USD", amount := 150, file := none } rfl
  have h2 := (paid_lifecycle [demoFreshRec] (some "Academia") (some "ASIA")
    none (some "Ann") none (some "a@b.c") (some "99") none "R1" 0).2
    "R1" "TX1" "UPI" "a@b.c" demoFile 1 0 demoFreshRec "a@b.c"
    rfl rfl rfl rfl (by decide)
  exact ⟨h1, h2.1, h2.2.2.2.2⟩

/-! ### C7 -/

/-- C7: every admin operation (list, export, mark-paid) with a resolved
caller secret that is not string-equal to the configured password —
the empty string and case-variants included — returns the unauthorized
error, returns no record data, and performs no state change. -/
theorem admin_auth_reject (cfg pass : String) (rows : List Registration)
    (q : Option String) (rid : String) (b : Bool) (now : Nat)
    (h : pass ≠ cfg) :
    adminList cfg pass rows q = .error .unauthorized
    ∧ adminExport cfg pass rows = .error .unauthorized
    ∧ adminMarkPaid cfg pass rows rid b now = .error .unauthorized
    ∧ dbAfter rows (adminMarkPaid cfg pass rows rid b now) = rows := by
  have hc : checkAdminPassword cfg pass = false := beq_eq_false_iff_ne.mpr h
  have h3 : adminMarkPaid cfg pass rows rid b now = .error .unauthorized := by
    simp only [adminMarkPaid, hc]
    rfl
  refine ⟨?_, ?_, h3, by rw [h3]; rfl⟩
  · simp only [adminList, hc]
    rfl
  · simp only [adminExport, hc]
    rfl

/-- C7, witness: with the configured default password, both the empty
secret and the lowercased case-variant are rejected by list, export and
mark-paid. -/
theorem admin_auth_reject_witness :
    adminList "VishalRajput2003" "" [demoFreshRec] none
        = .error .unauthorized
    ∧ adminExport "VishalRajput2003" "vishalrajput2003" [demoFreshRec]
        = .error .unauthorized
    ∧ adminMarkPaid "VishalRajput2003" "" [demoFreshRec] "R1" true 2
        = .error .unauthorized := by
  have hA := admin_auth_reject "VishalRajput2003" "" [demoFreshRec] none
    "R1" true 2 (by decide)
  have hB := admin_auth_reject "VishalRajput2003" "vishalrajput2003"
    [demoFreshRec] none "R1" true 2 (by decide)
  exact ⟨hA.1, hB.2.1, hA.2.2.1⟩

/-! ### C8 -/

/-- C8: with the correct password and no query, the admin list returns
all records most-recently-created first (reverse insertion order), each
augmented with derived paper and payment-proof URLs; with a truthy
query it keeps exactly the records (same order) whose concatenation of
id, name and paper_id (JS renders a null paper_id as the text "null")
contains the query case-insensitively; a derived URL is null exactly
when the corresponding filename is absent. -/
theorem adminList_spec (cfg : String) (rows : List Registration) :
    adminList cfg cfg rows none = .ok ((rows.reverse).map augment)
    ∧ (∀ q : String, strToLower q ≠ "" →
      adminList cfg cfg rows (some q)
        = .ok (((rows.reverse).filter
            (fun r => strIncludes (strToLower (searchKey r))
              (strToLower q))).map augment))
    ∧ (∀ r : Registration,
        (r.paper_filename = none → (augment r).paper_url = none)
        ∧ (∀ fn, r.paper_filename = some fn →
            (augment r).paper_url = some ("/uploads/" ++ fn))
        ∧ (r.payment_proof_filename = none →
            (augment r).payment_proof_url = none)
        ∧ (∀ fn, r.payment_proof_filename = some fn →
            (augment r).payment_proof_url = some ("/uploads/" ++ fn))) := by
  have hc : checkAdminPassword cfg cfg = true := by
    simp [checkAdminPassword]
  refine ⟨?_, ?_, ?_⟩
  · simp only [adminList, hc]
    rfl
  · intro q hq
    have hq2 : (strToLower q != "") = true := bne_iff_ne.mpr hq
    simp only [adminList, hc, Option.getD_some, hq2]
    rfl
  · intro r
    refine ⟨?_, ?_, ?_, ?_⟩
    · intro h
      simp [augment, h]
    · intro fn h
      simp [augment, h]
    · intro h
      simp [augment, h]
    · intro fn h
      simp [augment, h]

/-- C8, witness: on two concrete records — Ann (no paper, null
paper_id) then Bob (paper F2, paper_id P9) — the unqueried list is
[Bob, Ann] in reverse insertion order, the query BoB keeps exactly Bob,
Ann's derived paper URL is null and Bob's is /uploads/F2. -/
theorem adminList_spec_witness :
    adminList "pw" "pw" [demoFreshRec, demoRec2] none
        = .ok [augment demoRec2, augment demoFreshRec]
    ∧ adminList "pw" "pw" [demoFreshRec, demoRec2] (some "BoB")
        = .ok [augment demoRec2]
    ∧ (augment demoFreshRec).paper_url = none
    ∧ (augment demoRec2).paper_url = some "/uploads/F2" := by
  have h := adminList_spec "pw" [demoFreshRec, demoRec2]
  exact ⟨h.1, h.2.1 "BoB" (by decide), (h.2.2 demoFreshRec).1 rfl,
    (h.2.2 demoRec2).2.1 "F2" rfl⟩

/-! ### C9 -/

/-- C9: every generated identifier is exactly 10 characters long and
every character comes from the 33-character nanoid alphabet, which is
precisely the digits 1–9 together with the uppercase letters A–Z
excluding I and O. -/
theorem nanoid_spec (pick : Nat → Nat) :
    (nanoidGen pick).length = 10
    ∧ (∀ c ∈ (nanoidGen pick).data, c ∈ NANOID_ALPHABET)
    ∧ NANOID_ALPHABET.length = 33
    ∧ (∀ c ∈ NANOID_ALPHABET,
        ('1' ≤ c ∧ c ≤ '9') ∨ ('A' ≤ c ∧ c ≤ 'Z' ∧ c ≠ 'I' ∧ c ≠ 'O'))
    ∧ (∀ c ∈ "123456789".data, c ∈ NANOID_ALPHABET)
    ∧ (∀ c ∈ "ABCDEFGHIJKLMNOPQRSTUVWXYZ".data,
        c ≠ 'I' → c ≠ 'O' → c ∈ NANOID_ALPHABET) := by
  refine ⟨?_, ?_, by decide, by decide, by decide, by decide⟩
  · show ((List.range 10).map
      (fun i => NANOID_ALPHABET.getD (pick i % NANOID_ALPHABET.length) 'A')).length = 10
    rw [List.length_map, List.length_range]
  · intro c hc
    have hc2 : c ∈ (List.range 10).map
        (fun i => NANOID_ALPHABET.getD (pick i % NANOID_ALPHABET.length) 'A') := hc
    rcases List.mem_map.mp hc2 with ⟨i, _, rfl⟩
    have hlt : pick i % NANOID_ALPHABET.length < NANOID_ALPHABET.length := by
      exact Nat.mod_lt _ (by decide)
    rw [List.getD_eq_getElem?_getD, List.getElem?_eq_getElem hlt,
      Option.getD_some]
    exact List.getElem_mem hlt

/-! ### C10 -/

/-- C10: in the proof-file confirm-payment route, a stored record whose
email is null or empty skips the email check entirely: confirmation
succeeds and marks the record paid for any supplied payer email, and
the email-mismatch error is unreachable for such records. -/
theorem confirm_skips_falsy_email (rows : List Registration)
    (rid tx mth pe : String) (f : UploadFile) (now : Nat) (i : Nat)
    (r : Registration)
    (hfind : rows.findIdx? (fun q => q.id == rid) = some i)
    (hget : rows.get? i = some r)
    (hemail : r.email = none ∨ r.email = some "") :
    confirmPayment rows rid tx mth pe (some f) now
        = .ok (rows.set i (confirmedRec r tx mth pe f now),
            { ok := true, id := rid })
    ∧ (confirmedRec r tx mth pe f now).paid = .num 1
    ∧ (confirmedRec r tx mth pe f now).paid.truthy = true
    ∧ confirmPayment rows rid tx mth pe (some f) now
        ≠ .error .emailMismatch := by
  have hcond : (storedTruthy r.email
      && (strToLower (r.email.getD "") != strToLower pe)) = false := by
    rcases hemail with h | h <;> rw [h] <;> rfl
  have hok : confirmPayment rows rid tx mth pe (some f) now
      = .ok (rows.set i (confirmedRec r tx mth pe f now),
          { ok := true, id := rid }) := by
    simp only [confirmPayment, hfind, hget, hcond, confirmedRec]
    rfl
  exact ⟨hok, rfl, rfl, by rw [hok]; exact fun h => Except.noConfusion h⟩

/-- C10, witness: a stored record with a null email is confirmed by an
arbitrary payer email. -/
theorem confirm_skips_falsy_email_witness :
    confirmPayment [demoNoEmailRec] "R2" "TX9" "CARD" "who@x.y"
        (some demoFile) 5
      = .ok ([confirmedRec demoNoEmailRec "TX9" "CARD" "who@x.y" demoFile 5],
          { ok := true, id := "R2" }) :=
  (confirm_skips_falsy_email [demoNoEmailRec] "R2" "TX9" "CARD" "who@x.y"
    demoFile 5 0 demoNoEmailRec rfl rfl (.inl rfl)).1

end ScholarHub
